import Mathlib

/-!
# Verification of the GridMove movement-and-world subsystem

Shallow embedding, in Lean 4, of the terrain / movement / item-collection core
of the `cb-we-game` repository, together with theorems settling the spec
claims about it.  Each embedded definition mirrors one JavaScript function of
the source; JavaScript numbers are modelled as `Int`/`Nat` for grid
coordinates and `ℚ` for pixel quantities, and every occurrence of
`Math.sqrt(d) < e` (resp. `… <= e`) in the source is embedded as the exact
equivalent comparison `d < e^2` (resp. `d ≤ e^2`) of non-negative quantities.
-/

namespace CbWeGame

/-! ## Terrain types (`src/.../utils/TerrainTypes.js`) -/

/-- `TERRAIN_TYPES.WATER = 0` from `TerrainTypes.js`. -/
def WATER : Nat := 0

/-- `TERRAIN_TYPES.LAND = 1` from `TerrainTypes.js`. -/
def LAND : Nat := 1

/-- The part of a `TERRAIN_CONFIG` entry relevant to movement. -/
structure TerrainCfg where
  walkable : Bool
deriving DecidableEq

/-- The `TERRAIN_CONFIG` table: water is not walkable, land is. -/
def TERRAIN_CONFIG (t : Nat) : Option TerrainCfg :=
  if t = WATER then some ⟨false⟩
  else if t = LAND then some ⟨true⟩
  else none

/-- `getTerrainConfig`: table lookup with the `|| TERRAIN_CONFIG[LAND]`
fallback for unknown terrain ids. -/
def getTerrainConfig (t : Nat) : TerrainCfg :=
  (TERRAIN_CONFIG t).getD ⟨true⟩

/-- `isTerrainWalkable` from `TerrainTypes.js`. -/
def isTerrainWalkable (t : Nat) : Bool :=
  (getTerrainConfig t).walkable

/-! ## `TerrainComponent` (`components/TerrainComponent.js`)

The stored `terrainMap` is a `gridSize × gridSize` array; we embed it as a
total function that is only ever consulted at in-bounds indices (the source
bounds-checks every access). -/

structure TerrainComponent where
  gridSize : Nat
  terrainMap : Nat → Nat → Nat

namespace TerrainComponent

/-- `_isValidCoordinate`. -/
def isValidCoordinate (tc : TerrainComponent) (gridX gridY : Int) : Bool :=
  decide (0 ≤ gridX ∧ gridX < (tc.gridSize : Int) ∧
          0 ≤ gridY ∧ gridY < (tc.gridSize : Int))

/-- `getTerrainAt`: out-of-bounds coordinates read as `WATER`. -/
def getTerrainAt (tc : TerrainComponent) (gridX gridY : Int) : Nat :=
  if tc.isValidCoordinate gridX gridY then
    tc.terrainMap gridX.toNat gridY.toNat
  else WATER

/-- `isWalkable`. -/
def isWalkable (tc : TerrainComponent) (gridX gridY : Int) : Bool :=
  isTerrainWalkable (tc.getTerrainAt gridX gridY)

/-- `canMoveTo`: bounds check, walkability check, then the
one-orthogonal-step check on `|Δx|, |Δy|`. -/
def canMoveTo (tc : TerrainComponent)
    (fromGridX fromGridY toGridX toGridY : Int) : Bool :=
  if ¬ tc.isValidCoordinate toGridX toGridY then false
  else if ¬ tc.isWalkable toGridX toGridY then false
  else
    let deltaX := (toGridX - fromGridX).natAbs
    let deltaY := (toGridY - fromGridY).natAbs
    decide ((deltaX = 1 ∧ deltaY = 0) ∨ (deltaX = 0 ∧ deltaY = 1))

end TerrainComponent

/-- **C2.** `canMoveTo(from,to)` is `true` iff `to` is inside `[0,size)²`,
the terrain at `to` is walkable, and `to` is orthogonally adjacent to `from`:
exactly one axis differs, and it differs by exactly one cell (no diagonal,
no multi-cell jump). -/
theorem canMoveTo_iff_inBounds_walkable_adjacent
    (tc : TerrainComponent) (fromX fromY toX toY : Int) :
    tc.canMoveTo fromX fromY toX toY = true ↔
      (0 ≤ toX ∧ toX < (tc.gridSize : Int) ∧
       0 ≤ toY ∧ toY < (tc.gridSize : Int)) ∧
      tc.isWalkable toX toY = true ∧
      (((toX - fromX).natAbs = 1 ∧ (toY - fromY).natAbs = 0) ∨
       ((toX - fromX).natAbs = 0 ∧ (toY - fromY).natAbs = 1)) := by
  unfold TerrainComponent.canMoveTo
  by_cases hv : tc.isValidCoordinate toX toY = true
  · by_cases hw : tc.isWalkable toX toY = true
    · simp only [hv, hw, not_true_eq_false, if_false, decide_eq_true_eq]
      unfold TerrainComponent.isValidCoordinate at hv
      rw [decide_eq_true_eq] at hv
      tauto
    · have hw0 : tc.isWalkable toX toY = false := by simpa using hw
      simp [hv, hw0]
  · have hv0 : tc.isValidCoordinate toX toY = false := by simpa using hv
    unfold TerrainComponent.isValidCoordinate at hv
    rw [decide_eq_true_eq] at hv
    rw [if_pos (by simp [hv0])]
    simp only [Bool.false_eq_true, false_iff]
    intro h
    exact hv h.1

/-! ## `InventoryComponent` (`components/InventoryComponent.js`)

The ledger is the `items` array, in collection order; each record stores a
kind and a count.  (The source also stores a `Date.now()` timestamp per
record, which is wall-clock data and plays no role in any ledger operation;
it is omitted here.) -/

structure InvItem where
  type : String
  count : Nat
deriving DecidableEq, Repr

structure InventoryComponent where
  items : List InvItem
  capacity : Int
deriving DecidableEq, Repr

/-- A fresh inventory: empty ledger, `capacity = -1` (unlimited). -/
def InventoryComponent.emptyInv : InventoryComponent := ⟨[], -1⟩

/-- Increment the count of the first record of the given kind, in place
(`existingItem.count += count` on the record found by `items.find`). -/
def bumpFirst (type : String) (count : Nat) : List InvItem → List InvItem
  | [] => []
  | it :: rest =>
    if it.type = type then { it with count := it.count + count } :: rest
    else it :: bumpFirst type count rest

/-- Count held by the first ledger record of a kind, `0` if absent
(the lookup inside `getItemCount`). -/
def countOf (l : List InvItem) (type : String) : Nat :=
  ((l.find? (fun it => it.type = type)).map InvItem.count).getD 0

namespace InventoryComponent

/-- `addItem(type, count)`: reject non-positive counts; increment an existing
record in place; otherwise reject if the kind-capacity is exceeded, else
append a fresh record at the end.  Returns the updated inventory and the
success flag. -/
def addItem (inv : InventoryComponent) (type : String) (count : Nat) :
    InventoryComponent × Bool :=
  if count ≤ 0 then (inv, false)
  else if (inv.items.find? (fun it => it.type = type)).isSome then
    ({ inv with items := bumpFirst type count inv.items }, true)
  else if 0 < inv.capacity ∧ inv.capacity ≤ (inv.items.length : Int) then
    (inv, false)
  else ({ inv with items := inv.items ++ [⟨type, count⟩] }, true)

/-- `getItemCount`. -/
def getItemCount (inv : InventoryComponent) (type : String) : Nat :=
  countOf inv.items type

/-- `getInventoryData`, restricted to the fields the ledger claims are
about: the `(kind, count)` pairs in `items` order. -/
def getInventoryData (inv : InventoryComponent) : List (String × Nat) :=
  inv.items.map (fun it => (it.type, it.count))

end InventoryComponent

/-- First-occurrence order of kinds in a collection sequence: a kind already
seen is dropped, a new kind is appended. -/
def insertKind (acc : List String) (k : String) : List String :=
  if k ∈ acc then acc else acc ++ [k]

/-- The kinds of a collection sequence in first-collection order. -/
def firstOrder (ks : List String) : List String :=
  ks.foldl insertKind []

/-- Folding a sequence of single-item collections into an inventory. -/
def collectFold (inv : InventoryComponent) (ks : List String) :
    InventoryComponent :=
  ks.foldl (fun inv k => (inv.addItem k 1).1) inv

lemma bumpFirst_map_type (type : String) (count : Nat) (l : List InvItem) :
    (bumpFirst type count l).map InvItem.type = l.map InvItem.type := by
  induction l with
  | nil => rfl
  | cons it rest ih =>
    by_cases h : it.type = type <;> simp [bumpFirst, h, ih]

lemma find?_type_isSome_iff (l : List InvItem) (k : String) :
    (l.find? (fun it => it.type = k)).isSome = true ↔
      k ∈ l.map InvItem.type := by
  rw [List.find?_isSome]
  simp

lemma countOf_cons_pos (it : InvItem) (rest : List InvItem) (j : String)
    (h : it.type = j) : countOf (it :: rest) j = it.count := by
  unfold countOf
  rw [List.find?_cons_of_pos _ (by simp [h])]
  rfl

lemma countOf_cons_neg (it : InvItem) (rest : List InvItem) (j : String)
    (h : ¬ it.type = j) : countOf (it :: rest) j = countOf rest j := by
  unfold countOf
  rw [List.find?_cons_of_neg _ (by simp [h])]

lemma countOf_bumpFirst_self (k : String) (n : Nat) (l : List InvItem)
    (h : k ∈ l.map InvItem.type) :
    countOf (bumpFirst k n l) k = countOf l k + n := by
  induction l with
  | nil => simp at h
  | cons it rest ih =>
    by_cases hit : it.type = k
    · rw [bumpFirst, if_pos hit,
        countOf_cons_pos ⟨it.type, it.count + n⟩ rest k hit,
        countOf_cons_pos it rest k hit]
    · have hmem : k ∈ rest.map InvItem.type := by
        simp only [List.map_cons, List.mem_cons] at h
        rcases h with h1 | h1
        · exact absurd h1.symm hit
        · exact h1
      rw [bumpFirst, if_neg hit, countOf_cons_neg it (bumpFirst k n rest) k hit,
        countOf_cons_neg it rest k hit]
      exact ih hmem

lemma countOf_bumpFirst_other (k j : String) (n : Nat) (l : List InvItem)
    (hjk : j ≠ k) :
    countOf (bumpFirst k n l) j = countOf l j := by
  induction l with
  | nil => rfl
  | cons it rest ih =>
    by_cases hit : it.type = k
    · have hne : ¬ it.type = j := by rw [hit]; exact fun h => hjk h.symm
      rw [bumpFirst, if_pos hit,
        countOf_cons_neg ⟨it.type, it.count + n⟩ rest j hne,
        countOf_cons_neg it rest j hne]
    · by_cases hij : it.type = j
      · rw [bumpFirst, if_neg hit,
          countOf_cons_pos it (bumpFirst k n rest) j hij,
          countOf_cons_pos it rest j hij]
      · rw [bumpFirst, if_neg hit,
          countOf_cons_neg it (bumpFirst k n rest) j hij,
          countOf_cons_neg it rest j hij]
        exact ih

lemma countOf_append_singleton (l : List InvItem) (k j : String) (n : Nat)
    (habs : k ∉ l.map InvItem.type) :
    countOf (l ++ [⟨k, n⟩]) j = countOf l j + if j = k then n else 0 := by
  induction l with
  | nil =>
    by_cases h : j = k
    · rw [List.nil_append, countOf_cons_pos ⟨k, n⟩ [] j h.symm, if_pos h]
      simp [countOf]
    · have hkj : ¬ ((⟨k, n⟩ : InvItem).type = j) := fun hkj => h hkj.symm
      rw [List.nil_append, countOf_cons_neg ⟨k, n⟩ [] j hkj, if_neg h]
      rfl
  | cons it rest ih =>
    have habs2 : k ∉ rest.map InvItem.type := by
      intro hmem; exact habs (by simp [hmem])
    by_cases hij : it.type = j
    · have hjk : ¬ j = k := by
        intro hjk
        apply habs
        simp only [List.map_cons, List.mem_cons]
        exact Or.inl (hjk ▸ hij).symm
      rw [List.cons_append,
        countOf_cons_pos it (rest ++ [(⟨k, n⟩ : InvItem)]) j hij,
        countOf_cons_pos it rest j hij, if_neg hjk]
      rfl
    · rw [List.cons_append,
        countOf_cons_neg it (rest ++ [(⟨k, n⟩ : InvItem)]) j hij,
        countOf_cons_neg it rest j hij]
      exact ih habs2

lemma insertKind_nodup (acc : List String) (k : String) (h : acc.Nodup) :
    (insertKind acc k).Nodup := by
  unfold insertKind
  by_cases hm : k ∈ acc
  · simpa [hm] using h
  · simpa [hm] using List.Nodup.append h (by simp) (by simpa using hm)

lemma foldl_insertKind_nodup (ks : List String) (acc : List String)
    (h : acc.Nodup) : (ks.foldl insertKind acc).Nodup := by
  induction ks generalizing acc with
  | nil => simpa using h
  | cons k rest ih => exact ih _ (insertKind_nodup acc k h)

lemma collectFold_types (ks : List String) (inv : InventoryComponent)
    (hcap : inv.capacity ≤ 0) :
    (collectFold inv ks).items.map InvItem.type =
      ks.foldl insertKind (inv.items.map InvItem.type) ∧
    (collectFold inv ks).capacity = inv.capacity := by
  induction ks generalizing inv with
  | nil => exact ⟨rfl, rfl⟩
  | cons k rest ih =>
    have hstep :
        ((inv.addItem k 1).1).items.map InvItem.type =
          insertKind (inv.items.map InvItem.type) k ∧
        ((inv.addItem k 1).1).capacity = inv.capacity := by
      unfold InventoryComponent.addItem
      by_cases hmem : (inv.items.find? (fun it => it.type = k)).isSome = true
      · have hk : k ∈ inv.items.map InvItem.type :=
          (find?_type_isSome_iff _ _).mp hmem
        simp [hmem, insertKind, hk, bumpFirst_map_type]
      · have hk : k ∉ inv.items.map InvItem.type := by
          intro hmm
          exact hmem ((find?_type_isSome_iff _ _).mpr hmm)
        have hnocap : ¬ (0 < inv.capacity ∧
            inv.capacity ≤ (inv.items.length : Int)) := by
          intro hc; omega
        simp [hmem, hnocap, insertKind, hk]
    have ihr := ih (inv.addItem k 1).1 (by rw [hstep.2]; exact hcap)
    refine ⟨?_, ?_⟩
    · show (collectFold (inv.addItem k 1).1 rest).items.map InvItem.type = _
      rw [ihr.1, hstep.1]
      rfl
    · show (collectFold (inv.addItem k 1).1 rest).capacity = _
      rw [ihr.2, hstep.2]

lemma addItem_countOf (inv : InventoryComponent) (k j : String)
    (hcap : inv.capacity ≤ 0) :
    countOf ((inv.addItem k 1).1).items j =
      countOf inv.items j + (if j = k then 1 else 0) ∧
    ((inv.addItem k 1).2 = true) := by
  unfold InventoryComponent.addItem
  by_cases hmem : (inv.items.find? (fun it => it.type = k)).isSome = true
  · have hk : k ∈ inv.items.map InvItem.type :=
      (find?_type_isSome_iff _ _).mp hmem
    by_cases hj : j = k
    · subst hj
      simpa [hmem] using countOf_bumpFirst_self j 1 inv.items hk
    · simpa [hmem, hj] using countOf_bumpFirst_other k j 1 inv.items hj
  · have hk : k ∉ inv.items.map InvItem.type := by
      intro hmm
      exact hmem ((find?_type_isSome_iff _ _).mpr hmm)
    have hnocap : ¬ (0 < inv.capacity ∧
        inv.capacity ≤ (inv.items.length : Int)) := by
      intro hc; omega
    simpa [hmem, hnocap] using countOf_append_singleton inv.items k j 1 hk

lemma collectFold_countOf (ks : List String) (inv : InventoryComponent)
    (hcap : inv.capacity ≤ 0) (j : String) :
    countOf (collectFold inv ks).items j =
      countOf inv.items j + ks.count j := by
  induction ks generalizing inv with
  | nil => simp [collectFold]
  | cons k rest ih =>
    have hstep := addItem_countOf inv k j hcap
    have hcap2 : ((inv.addItem k 1).1).capacity ≤ 0 := by
      unfold InventoryComponent.addItem
      by_cases hmem : (inv.items.find? (fun it => it.type = k)).isSome = true
      · simpa [hmem] using hcap
      · have hnocap : ¬ (0 < inv.capacity ∧
            inv.capacity ≤ (inv.items.length : Int)) := by
          intro hc; omega
        simpa [hmem, hnocap] using hcap
    have ihr := ih (inv.addItem k 1).1 hcap2
    calc countOf (collectFold (inv.addItem k 1).1 rest).items j
        = countOf ((inv.addItem k 1).1).items j + rest.count j := ihr
      _ = (countOf inv.items j + if j = k then 1 else 0) + rest.count j := by
          rw [hstep.1]
      _ = countOf inv.items j + (k :: rest).count j := by
          rw [List.count_cons]
          simp only [beq_iff_eq]
          by_cases hj : j = k
          · rw [if_pos hj, if_pos hj.symm]
            omega
          · rw [if_neg hj, if_neg (fun h => hj h.symm)]
            omega

/-- **C7.** Starting from a fresh inventory and collecting the kinds `ks`
one by one: the ledger holds exactly one record per distinct kind, its
records appear in first-collection order (a kind already present is
incremented in place, a new kind is appended at the end), the count recorded
for each kind is the number of its collections, and in particular the
collection order `[seed, coin, seed]` yields the ledger
`[(seed, 2), (coin, 1)]`. -/
theorem inventory_ledger_first_collection_order (ks : List String) :
    ((collectFold InventoryComponent.emptyInv ks).items.map InvItem.type
        = firstOrder ks) ∧
    ((collectFold InventoryComponent.emptyInv ks).items.map
        InvItem.type).Nodup ∧
    (∀ k, (collectFold InventoryComponent.emptyInv ks).getItemCount k
        = ks.count k) ∧
    (collectFold InventoryComponent.emptyInv
        ["seed", "coin", "seed"]).getInventoryData
      = [("seed", 2), ("coin", 1)] := by
  have hcap : InventoryComponent.emptyInv.capacity ≤ 0 := by decide
  have htypes := (collectFold_types ks InventoryComponent.emptyInv hcap).1
  refine ⟨htypes, ?_, ?_, ?_⟩
  · rw [htypes]
    exact foldl_insertKind_nodup ks [] List.nodup_nil
  · intro k
    simpa [InventoryComponent.getItemCount, InventoryComponent.emptyInv,
      countOf] using collectFold_countOf ks InventoryComponent.emptyInv hcap k
  · rfl

/-! ## `ItemComponent` (`components/ItemComponent.js`) and the collection
resolver (`GridMoveGame.js` `_checkCollisions` / `_collectItem`) -/

structure ItemComponent where
  type : String
  gridX : Int
  gridY : Int
  collected : Bool
  collectable : Bool
deriving DecidableEq, Repr

namespace ItemComponent

/-- `canBeCollected()`: not yet collected and configured collectable. -/
def canBeCollected (item : ItemComponent) : Bool :=
  !item.collected && item.collectable

/-- `collect()`: mark collected iff currently collectable; return the
updated item and the success flag. -/
def collect (item : ItemComponent) : ItemComponent × Bool :=
  if item.canBeCollected then ({ item with collected := true }, true)
  else (item, false)

end ItemComponent

/-- `_collectItem`: run `collect()`; bail out if it fails; add to the
inventory; on inventory rejection roll the collected flag back. -/
def collectItem (item : ItemComponent) (inv : InventoryComponent) :
    ItemComponent × InventoryComponent :=
  let c := item.collect
  if c.2 = false then (item, inv)
  else
    let a := inv.addItem item.type 1
    if a.2 = false then ({ c.1 with collected := false }, inv)
    else (c.1, a.1)

/-- Loop body of `_checkCollisions` for one item: skip items already
collected or not collectable, collect on an exact grid-coordinate match. -/
def checkCollisionItem (playerGridX playerGridY : Int)
    (item : ItemComponent) (inv : InventoryComponent) :
    ItemComponent × InventoryComponent :=
  if item.collected then (item, inv)
  else if ¬ item.canBeCollected then (item, inv)
  else if playerGridX = item.gridX ∧ playerGridY = item.gridY then
    collectItem item inv
  else (item, inv)

/-- One frame of the collision resolver acting on an (item, inventory)
pair. -/
def collisionStep (playerGridX playerGridY : Int)
    (p : ItemComponent × InventoryComponent) :
    ItemComponent × InventoryComponent :=
  checkCollisionItem playerGridX playerGridY p.1 p.2

lemma collisionStep_of_collected (playerGridX playerGridY : Int)
    (item : ItemComponent) (inv : InventoryComponent)
    (h : item.collected = true) :
    collisionStep playerGridX playerGridY (item, inv) = (item, inv) := by
  simp [collisionStep, checkCollisionItem, h]

/-- **C6.** Collection is idempotent per item: once the collected flag is
true, a further collision match is a no-op, so colliding with the same item
on any positive number of frames increases the inventory count of its kind
by exactly `1`, never `2`. -/
theorem collect_idempotent_count_increases_once
    (playerGridX playerGridY : Int)
    (item : ItemComponent) (inv : InventoryComponent)
    (hcap : inv.capacity ≤ 0) :
    (item.collected = true →
      collisionStep playerGridX playerGridY (item, inv) = (item, inv)) ∧
    (item.collected = false → item.collectable = true →
      playerGridX = item.gridX → playerGridY = item.gridY →
      ∀ n : Nat,
        countOf (((collisionStep playerGridX playerGridY)^[n + 1]
            (item, inv)).2).items item.type
          = countOf inv.items item.type + 1) := by
  constructor
  · exact collisionStep_of_collected playerGridX playerGridY item inv
  · intro hcol hcoll hx hy n
    have hcan : item.canBeCollected = true := by
      simp [ItemComponent.canBeCollected, hcol, hcoll]
    have hadd := addItem_countOf inv item.type item.type hcap
    have hc : item.collect = ({ item with collected := true }, true) := by
      unfold ItemComponent.collect
      rw [if_pos hcan]
    have hstep : collisionStep playerGridX playerGridY (item, inv) =
        ({ item with collected := true }, (inv.addItem item.type 1).1) := by
      unfold collisionStep checkCollisionItem collectItem
      rw [if_neg (by simp [hcol]), if_neg (by simp [hcan]), if_pos ⟨hx, hy⟩,
        hc]
      simp [hadd.2]
    have hfix : ∀ m : Nat, (collisionStep playerGridX playerGridY)^[m]
        ({ item with collected := true }, (inv.addItem item.type 1).1) =
        ({ item with collected := true }, (inv.addItem item.type 1).1) :=
      fun m => Function.iterate_fixed
        (collisionStep_of_collected playerGridX playerGridY _ _ rfl) m
    rw [Function.iterate_succ_apply, hstep, hfix n]
    simpa using hadd.1

/-- Concrete instance of the C6 theorem: a collectable coin at cell (5,5),
player at (5,5), two collision frames, coin count ends at exactly 1. -/
theorem collect_idempotent_count_increases_once_witness :
    InventoryComponent.emptyInv.capacity ≤ 0 ∧
    countOf (((collisionStep 5 5)^[1 + 1]
        ((⟨"coin", 5, 5, false, true⟩ : ItemComponent),
          InventoryComponent.emptyInv)).2).items "coin"
      = countOf InventoryComponent.emptyInv.items "coin" + 1 :=
  ⟨by decide,
    (collect_idempotent_count_increases_once 5 5
        ⟨"coin", 5, 5, false, true⟩ InventoryComponent.emptyInv
        (by decide)).2 rfl rfl rfl rfl 1⟩

/-! ## Kinematic state and the movement pipeline

One moving entity carries a `PositionComponent` (pixel position), a
`MovementComponent` (velocity, speed, optional target, moving flag) and a
`GridComponent` (cell coordinates); we bundle them into one record.  The
source stores the target as two nullable fields `targetX`/`targetY` that are
always written and cleared together (`setTarget`/`clearTarget`); they are
embedded as one optional pair.  The `direction` angle field (written by
`setVelocity` via `atan2`, read nowhere in the pipeline) is omitted. -/

structure EntityState where
  posX : ℚ
  posY : ℚ
  velX : ℚ
  velY : ℚ
  speed : ℚ
  gridX : Int
  gridY : Int
  target : Option (ℚ × ℚ)
  moving : Bool
deriving DecidableEq, Repr

namespace EntityState

/-- `MovementComponent.setTarget(x, y)`. -/
def setTarget (s : EntityState) (x y : ℚ) : EntityState :=
  { s with target := some (x, y), moving := true }

/-- `MovementComponent.clearTarget()`. -/
def clearTarget (s : EntityState) : EntityState :=
  { s with target := none, moving := false }

/-- `MovementComponent.stop()`. -/
def stop (s : EntityState) : EntityState :=
  { s with velX := 0, velY := 0, moving := false }

/-- `MovementComponent.setVelocity(dir.x * speed, dir.y * speed)` as called
by the drag controller with a unit cardinal `dir`.  The source recomputes
`this.speed = √(vx² + vy²)`, which for `(±speed, 0)` or `(0, ±speed)` is
exactly `|speed|`. -/
def setVelocityCardinal (s : EntityState) (dirX dirY : Int) : EntityState :=
  { s with velX := dirX * s.speed, velY := dirY * s.speed,
           speed := |s.speed| }

end EntityState

/-- The walkability guard `this.terrainComponent &&
!this.terrainComponent.isWalkable(x, y)` of `GridSystem.update`. -/
def terrainBlocks (terrain : Option TerrainComponent) (x y : Int) : Bool :=
  match terrain with
  | some tc => !tc.isWalkable x y
  | none => false

/-- `GridSystem.update` body for one entity (`GridSystem.js`).  The snap
threshold `Math.sqrt(dx²+dy²) < 3` is embedded as `dx²+dy² < 9`.  On snap
the cell is derived from the *target* by `Math.floor(target / cellSize)`,
clamped to `[0, gridSize-1]`, and written to the grid component *before* the
walkability guard; the guard branch clears the target and stops without
touching the pixel position. -/
def gridSystemUpdate (gridSize : Nat) (cellSize : ℚ)
    (terrain : Option TerrainComponent) (s : EntityState) : EntityState :=
  if s.moving then
    match s.target with
    | none => s
    | some (tx, ty) =>
      let dx := tx - s.posX
      let dy := ty - s.posY
      if dx ^ 2 + dy ^ 2 < 9 then
        let targetGridX : Int := ⌊tx / cellSize⌋
        let targetGridY : Int := ⌊ty / cellSize⌋
        let gx := max 0 (min ((gridSize : Int) - 1) targetGridX)
        let gy := max 0 (min ((gridSize : Int) - 1) targetGridY)
        let s1 := { s with gridX := gx, gridY := gy }
        if terrainBlocks terrain gx gy then (s1.clearTarget).stop
        else (({ s1 with posX := tx, posY := ty }).clearTarget).stop
      else s
  else s

/-- `MovementSystem._moveToTarget`.  `distance < 1` is embedded as
`d2 < 1`; `moveDistance ≥ distance` (with `distance = √d2 ≥ 1 > 0` at that
point) as `0 ≤ moveDistance ∧ d2 ≤ moveDistance²`.  The remaining branch
moves the position by the ratio `moveDistance / √d2` along `(dx, dy)`, an
irrational scaling that touches only the position; it is embedded as an
oracle `adv` supplying the advanced position. -/
def moveToTarget (adv : ℚ × ℚ) (deltaSeconds : ℚ) (s : EntityState)
    (tx ty : ℚ) : EntityState :=
  let dx := tx - s.posX
  let dy := ty - s.posY
  let d2 := dx ^ 2 + dy ^ 2
  if d2 < 1 then ({ s with posX := tx, posY := ty }).clearTarget
  else
    let moveDistance := s.speed * deltaSeconds
    if 0 ≤ moveDistance ∧ d2 ≤ moveDistance ^ 2 then
      ({ s with posX := tx, posY := ty }).clearTarget
    else { s with posX := adv.1, posY := adv.2 }

/-- `MovementSystem.update` body for one entity (`deltaSeconds` is the
source's `deltaTime / 1000`). -/
def movementSystemUpdate (adv : ℚ × ℚ) (deltaSeconds : ℚ)
    (s : EntityState) : EntityState :=
  match s.target with
  | some (tx, ty) => moveToTarget adv deltaSeconds s tx ty
  | none =>
    if s.velX ≠ 0 ∨ s.velY ≠ 0 then
      { s with posX := s.posX + s.velX * deltaSeconds,
               posY := s.posY + s.velY * deltaSeconds }
    else s

/-! ## `DragSystem` (`systems/DragSystem.js`) -/

/-- The controller state owned by the `DragSystem` between frames, plus the
`game.currentDirection` display field it writes for UI feedback. -/
structure DragState where
  nextDirection : Option (Int × Int)
  currentDirection : Option (Int × Int)
  gameDirection : String
deriving DecidableEq, Repr

/-- The string the blocked branch writes into `game.currentDirection`. -/
def blockedSignal : String := "阻挡"

/-- `DragSystem._updateGridPosition`: re-derive the cell from the pixel
position by `Math.floor(pos / cellSize)` and clamp to bounds. -/
def updateGridPosition (gridSize : Nat) (cellSize : ℚ)
    (s : EntityState) : EntityState :=
  { s with gridX := max 0 (min ((gridSize : Int) - 1) ⌊s.posX / cellSize⌋),
           gridY := max 0 (min ((gridSize : Int) - 1) ⌊s.posY / cellSize⌋) }

/-- `DragSystem._isAtGridCenter` (`distance < 3` as `d2 < 9`). -/
def isAtGridCenter (cellSize : ℚ) (s : EntityState) : Bool :=
  let centerX := s.gridX * cellSize + cellSize / 2
  let centerY := s.gridY * cellSize + cellSize / 2
  decide ((s.posX - centerX) ^ 2 + (s.posY - centerY) ^ 2 < 9)

/-- The terrain-legality guard `this.terrainComponent &&
!this.terrainComponent.canMoveTo(...)` of `DragSystem.update`. -/
def dragBlocked (terrain : Option TerrainComponent)
    (fromX fromY toX toY : Int) : Bool :=
  match terrain with
  | some tc => !tc.canMoveTo fromX fromY toX toY
  | none => false

/-- `DragSystem.update` body for one player entity. -/
def dragSystemUpdate (gridSize : Nat) (cellSize : ℚ)
    (terrain : Option TerrainComponent) (canMove : Bool)
    (d : DragState) (s : EntityState) : DragState × EntityState :=
  if ¬ canMove then (d, s)
  else
    match d.nextDirection with
    | none =>
      if s.moving ∧ s.target ≠ none then (d, s)
      else (d, ((updateGridPosition gridSize cellSize s).clearTarget).stop)
    | some dir =>
      if isAtGridCenter cellSize s ∨ ¬ s.moving then
        let s1 := updateGridPosition gridSize cellSize s
        let clampedGridX := max 0 (min ((gridSize : Int) - 1)
          (s1.gridX + dir.1))
        let clampedGridY := max 0 (min ((gridSize : Int) - 1)
          (s1.gridY + dir.2))
        if clampedGridX = s1.gridX ∧ clampedGridY = s1.gridY then
          ({ d with currentDirection := none }, (s1.clearTarget).stop)
        else if dragBlocked terrain s1.gridX s1.gridY
            clampedGridX clampedGridY then
          ({ d with currentDirection := none,
                    gameDirection := blockedSignal },
           (s1.clearTarget).stop)
        else
          let targetX := clampedGridX * cellSize + cellSize / 2
          let targetY := clampedGridY * cellSize + cellSize / 2
          if d.currentDirection ≠ some dir then
            ({ d with currentDirection := some dir },
             (s1.setVelocityCardinal dir.1 dir.2).setTarget targetX targetY)
          else (d, s1.setTarget targetX targetY)
      else (d, s)

/-- Clamping is the identity on in-range indices. -/
lemma clamp_of_inRange (n g : Int) (h0 : 0 ≤ g) (h1 : g ≤ n) :
    max 0 (min n g) = g := by
  omega

/-- For a positive cell size, the cell-center pixel coordinate
`g * c + c / 2` floors back to `g`. -/
lemma floor_center_div (c : ℚ) (hc : 0 < c) (g : Int) :
    ⌊((g : ℚ) * c + c / 2) / c⌋ = g := by
  have hne : c ≠ 0 := ne_of_gt hc
  have h : ((g : ℚ) * c + c / 2) / c = (g : ℚ) + 1 / 2 := by
    field_simp
    ring
  rw [h, Int.floor_int_add]
  norm_num

/-- Evaluation of `GridSystem.update` when the snap condition fires: the
grid cell is always overwritten with the clamped floor of the target; the
walkability guard then decides whether the pixel position is snapped. -/
lemma gridSystemUpdate_snap (gridSize : Nat) (cellSize : ℚ)
    (terrain : Option TerrainComponent) (s : EntityState) (tx ty : ℚ)
    (hm : s.moving = true) (ht : s.target = some (tx, ty))
    (hclose : (tx - s.posX) ^ 2 + (ty - s.posY) ^ 2 < 9) :
    gridSystemUpdate gridSize cellSize terrain s =
      (if terrainBlocks terrain
          (max 0 (min ((gridSize : Int) - 1) ⌊tx / cellSize⌋))
          (max 0 (min ((gridSize : Int) - 1) ⌊ty / cellSize⌋)) then
        { s with
          gridX := max 0 (min ((gridSize : Int) - 1) ⌊tx / cellSize⌋),
          gridY := max 0 (min ((gridSize : Int) - 1) ⌊ty / cellSize⌋),
          target := none, moving := false, velX := 0, velY := 0 }
      else
        { s with
          gridX := max 0 (min ((gridSize : Int) - 1) ⌊tx / cellSize⌋),
          gridY := max 0 (min ((gridSize : Int) - 1) ⌊ty / cellSize⌋),
          posX := tx, posY := ty,
          target := none, moving := false, velX := 0, velY := 0 }) := by
  obtain ⟨px, py, vx, vy, sp, gX, gY, tgt, mv⟩ := s
  simp only at hm ht hclose
  subst hm
  subst ht
  simp only [gridSystemUpdate, if_true]
  rw [if_pos hclose]
  rfl

/-- **C3.** After an accepted snap — the entity is moving toward the center
of an in-bounds cell, the squared distance to the target is below the
`3`-pixel threshold, and the resolved cell is walkable — the pixel position
equals `gridX*cellSize + cellSize/2` exactly on both axes (zero residual),
`moving` is `false`, the target is cleared, and the grid coordinate is the
clamped floor of the *target* position, not a re-rounding of the pixel
position. -/
theorem grid_snap_exact (gridSize : Nat) (cellSize : ℚ)
    (terrain : Option TerrainComponent) (s : EntityState)
    (gx0 gy0 : Int) (tx ty : ℚ)
    (hc : 0 < cellSize)
    (hm : s.moving = true) (ht : s.target = some (tx, ty))
    (htx : tx = gx0 * cellSize + cellSize / 2)
    (hty : ty = gy0 * cellSize + cellSize / 2)
    (hgx0 : 0 ≤ gx0) (hgx1 : gx0 ≤ (gridSize : Int) - 1)
    (hgy0 : 0 ≤ gy0) (hgy1 : gy0 ≤ (gridSize : Int) - 1)
    (hclose : (tx - s.posX) ^ 2 + (ty - s.posY) ^ 2 < 9)
    (hwalk : terrainBlocks terrain gx0 gy0 = false) :
    (gridSystemUpdate gridSize cellSize terrain s).gridX
        = max 0 (min ((gridSize : Int) - 1) ⌊tx / cellSize⌋) ∧
    (gridSystemUpdate gridSize cellSize terrain s).gridY
        = max 0 (min ((gridSize : Int) - 1) ⌊ty / cellSize⌋) ∧
    (gridSystemUpdate gridSize cellSize terrain s).gridX = gx0 ∧
    (gridSystemUpdate gridSize cellSize terrain s).gridY = gy0 ∧
    (gridSystemUpdate gridSize cellSize terrain s).posX
        = (gridSystemUpdate gridSize cellSize terrain s).gridX * cellSize
          + cellSize / 2 ∧
    (gridSystemUpdate gridSize cellSize terrain s).posY
        = (gridSystemUpdate gridSize cellSize terrain s).gridY * cellSize
          + cellSize / 2 ∧
    (gridSystemUpdate gridSize cellSize terrain s).moving = false ∧
    (gridSystemUpdate gridSize cellSize terrain s).target = none := by
  have hfx : ⌊tx / cellSize⌋ = gx0 := by
    rw [htx]; exact floor_center_div cellSize hc gx0
  have hfy : ⌊ty / cellSize⌋ = gy0 := by
    rw [hty]; exact floor_center_div cellSize hc gy0
  have hclx : max 0 (min ((gridSize : Int) - 1) ⌊tx / cellSize⌋) = gx0 := by
    rw [hfx]; exact clamp_of_inRange _ _ hgx0 hgx1
  have hcly : max 0 (min ((gridSize : Int) - 1) ⌊ty / cellSize⌋) = gy0 := by
    rw [hfy]; exact clamp_of_inRange _ _ hgy0 hgy1
  have heval := gridSystemUpdate_snap gridSize cellSize terrain s tx ty
    hm ht hclose
  rw [hclx, hcly] at heval
  rw [heval, if_neg (by simp [hwalk])]
  exact ⟨hclx.symm, hcly.symm, rfl, rfl, htx, hty, rfl, rfl⟩

/-- Concrete instance for the C3 theorem: entity one pixel short of the
center of walkable cell (10,10) on a 30×30 grid with 50-pixel cells. -/
def demoSnapTerrain : TerrainComponent :=
  ⟨30, fun x y => if x = 11 ∧ y = 10 then WATER else LAND⟩

/-- Entity state for the C3 witness: moving right toward the center of cell
(10,10), one pixel away. -/
def demoSnapState : EntityState :=
  ⟨524, 525, 100, 0, 100, 9, 10, some (525, 525), true⟩

/-- C3 at a concrete input: after the snap the pixel position is exactly the
cell-center of the recorded grid cell and movement is over. -/
theorem grid_snap_exact_witness :
    (gridSystemUpdate 30 50 (some demoSnapTerrain) demoSnapState).gridX
        = 10 ∧
    (gridSystemUpdate 30 50 (some demoSnapTerrain) demoSnapState).posX
        = (gridSystemUpdate 30 50 (some demoSnapTerrain)
            demoSnapState).gridX * 50 + 50 / 2 ∧
    (gridSystemUpdate 30 50 (some demoSnapTerrain) demoSnapState).moving
        = false := by
  have h := grid_snap_exact 30 50 (some demoSnapTerrain) demoSnapState
    10 10 525 525 (by norm_num) rfl rfl (by norm_num) (by norm_num)
    (by norm_num) (by norm_num) (by norm_num) (by norm_num)
    (by norm_num [demoSnapState]) (by decide)
  exact ⟨h.2.2.1, h.2.2.2.2.1, h.2.2.2.2.2.2.1⟩

/-- **C4.** If at snap time the cell resolved from the target is
non-walkable, the snap is aborted: target cleared, movement stopped
(velocity zeroed, `moving = false`), and the pixel position left exactly
where it was — the entity is not teleported onto the illegal cell. -/
theorem grid_snap_abort_keeps_position (gridSize : Nat) (cellSize : ℚ)
    (tc : TerrainComponent) (s : EntityState) (tx ty : ℚ)
    (hm : s.moving = true) (ht : s.target = some (tx, ty))
    (hclose : (tx - s.posX) ^ 2 + (ty - s.posY) ^ 2 < 9)
    (hblock : tc.isWalkable
        (max 0 (min ((gridSize : Int) - 1) ⌊tx / cellSize⌋))
        (max 0 (min ((gridSize : Int) - 1) ⌊ty / cellSize⌋)) = false) :
    (gridSystemUpdate gridSize cellSize (some tc) s).posX = s.posX ∧
    (gridSystemUpdate gridSize cellSize (some tc) s).posY = s.posY ∧
    (gridSystemUpdate gridSize cellSize (some tc) s).target = none ∧
    (gridSystemUpdate gridSize cellSize (some tc) s).moving = false ∧
    (gridSystemUpdate gridSize cellSize (some tc) s).velX = 0 ∧
    (gridSystemUpdate gridSize cellSize (some tc) s).velY = 0 := by
  have heval := gridSystemUpdate_snap gridSize cellSize (some tc) s tx ty
    hm ht hclose
  rw [heval, if_pos (by simp [terrainBlocks, hblock])]
  exact ⟨rfl, rfl, rfl, rfl, rfl, rfl⟩

/-- Entity state for the C4 and C10 witnesses: moving right toward the
center of water cell (11,10), one pixel away. -/
def demoAbortState : EntityState :=
  ⟨574, 525, 100, 0, 100, 10, 10, some (575, 525), true⟩

/-- C4 at a concrete input: snapping toward water cell (11,10) aborts and
leaves the pixel position untouched. -/
theorem grid_snap_abort_keeps_position_witness :
    (gridSystemUpdate 30 50 (some demoSnapTerrain) demoAbortState).posX
        = demoAbortState.posX ∧
    (gridSystemUpdate 30 50 (some demoSnapTerrain) demoAbortState).target
        = none ∧
    (gridSystemUpdate 30 50 (some demoSnapTerrain) demoAbortState).velX
        = 0 := by
  have hfx : ⌊(575 : ℚ) / 50⌋ = 11 := by norm_num [Int.floor_eq_iff]
  have hfy : ⌊(525 : ℚ) / 50⌋ = 10 := by norm_num [Int.floor_eq_iff]
  have h := grid_snap_abort_keeps_position 30 50 demoSnapTerrain
    demoAbortState 575 525 rfl rfl (by norm_num [demoAbortState])
    (by rw [hfx, hfy]; decide)
  exact ⟨h.1, h.2.2.1, h.2.2.2.2.1⟩

/-- **C10.** In the defensive abort branch the grid coordinates have already
been overwritten with the clamped target cell before the walkability check
and are not restored: after an aborted snap the grid coordinate names the
non-walkable resolved cell while the pixel position still holds the old
location, and the target/moving state is cleared. -/
theorem grid_snap_abort_grid_overwritten (gridSize : Nat) (cellSize : ℚ)
    (tc : TerrainComponent) (s : EntityState) (tx ty : ℚ)
    (hm : s.moving = true) (ht : s.target = some (tx, ty))
    (hclose : (tx - s.posX) ^ 2 + (ty - s.posY) ^ 2 < 9)
    (hblock : tc.isWalkable
        (max 0 (min ((gridSize : Int) - 1) ⌊tx / cellSize⌋))
        (max 0 (min ((gridSize : Int) - 1) ⌊ty / cellSize⌋)) = false) :
    (gridSystemUpdate gridSize cellSize (some tc) s).gridX
        = max 0 (min ((gridSize : Int) - 1) ⌊tx / cellSize⌋) ∧
    (gridSystemUpdate gridSize cellSize (some tc) s).gridY
        = max 0 (min ((gridSize : Int) - 1) ⌊ty / cellSize⌋) ∧
    tc.isWalkable (gridSystemUpdate gridSize cellSize (some tc) s).gridX
        (gridSystemUpdate gridSize cellSize (some tc) s).gridY = false ∧
    (gridSystemUpdate gridSize cellSize (some tc) s).posX = s.posX ∧
    (gridSystemUpdate gridSize cellSize (some tc) s).posY = s.posY := by
  have heval := gridSystemUpdate_snap gridSize cellSize (some tc) s tx ty
    hm ht hclose
  rw [heval, if_pos (by simp [terrainBlocks, hblock])]
  exact ⟨rfl, rfl, hblock, rfl, rfl⟩

/-- C10 at a concrete input: after the aborted snap toward water cell
(11,10), the grid component records (11,10) — a non-walkable cell — while
the pixel position still sits one pixel short of it. -/
theorem grid_snap_abort_grid_overwritten_witness :
    (gridSystemUpdate 30 50 (some demoSnapTerrain) demoAbortState).gridX
        = 11 ∧
    demoSnapTerrain.isWalkable
        (gridSystemUpdate 30 50 (some demoSnapTerrain)
          demoAbortState).gridX
        (gridSystemUpdate 30 50 (some demoSnapTerrain)
          demoAbortState).gridY = false ∧
    (gridSystemUpdate 30 50 (some demoSnapTerrain) demoAbortState).posX
        = demoAbortState.posX := by
  have hfx : ⌊(575 : ℚ) / 50⌋ = 11 := by norm_num [Int.floor_eq_iff]
  have hfy : ⌊(525 : ℚ) / 50⌋ = 10 := by norm_num [Int.floor_eq_iff]
  have h := grid_snap_abort_grid_overwritten 30 50 demoSnapTerrain
    demoAbortState 575 525 rfl rfl (by norm_num [demoAbortState])
    (by rw [hfx, hfy]; decide)
  refine ⟨?_, h.2.2.1, h.2.2.2.1⟩
  rw [h.1, hfx]
  decide

/-- `_updateGridPosition` is the identity when the entity rests exactly at
the center of its in-range grid cell. -/
lemma updateGridPosition_at_center (gridSize : Nat) (cellSize : ℚ)
    (s : EntityState) (hc : 0 < cellSize)
    (hposx : s.posX = s.gridX * cellSize + cellSize / 2)
    (hposy : s.posY = s.gridY * cellSize + cellSize / 2)
    (hgx0 : 0 ≤ s.gridX) (hgx1 : s.gridX ≤ (gridSize : Int) - 1)
    (hgy0 : 0 ≤ s.gridY) (hgy1 : s.gridY ≤ (gridSize : Int) - 1) :
    updateGridPosition gridSize cellSize s = s := by
  obtain ⟨px, py, vx, vy, sp, gX, gY, tgt, mv⟩ := s
  simp only at hposx hposy hgx0 hgx1 hgy0 hgy1
  subst hposx
  subst hposy
  unfold updateGridPosition
  simp only
  rw [floor_center_div cellSize hc gX, floor_center_div cellSize hc gY,
    clamp_of_inRange _ _ hgx0 hgx1, clamp_of_inRange _ _ hgy0 hgy1]

/-- `_isAtGridCenter` holds when the entity rests exactly at the center of
its grid cell. -/
lemma isAtGridCenter_of_center (cellSize : ℚ) (s : EntityState)
    (hposx : s.posX = s.gridX * cellSize + cellSize / 2)
    (hposy : s.posY = s.gridY * cellSize + cellSize / 2) :
    isAtGridCenter cellSize s = true := by
  unfold isAtGridCenter
  rw [decide_eq_true_eq, hposx, hposy]
  norm_num

/-- **C5.** When the drag controller reconciles a held candidate direction
whose clamped target cell differs from the current cell but fails the
terrain-legality check, the entity does not move: velocity is zeroed, the
target is cleared, `moving` is false, grid coordinate and pixel position
stay at the current cell, the committed direction is dropped, and the
blocked signal is written to `game.currentDirection`; the update is a total
function, so no exception is raised. -/
theorem drag_blocked_stops_and_signals (gridSize : Nat) (cellSize : ℚ)
    (tc : TerrainComponent) (d : DragState) (s : EntityState)
    (dir : Int × Int)
    (hc : 0 < cellSize)
    (hnd : d.nextDirection = some dir)
    (hposx : s.posX = s.gridX * cellSize + cellSize / 2)
    (hposy : s.posY = s.gridY * cellSize + cellSize / 2)
    (hgx0 : 0 ≤ s.gridX) (hgx1 : s.gridX ≤ (gridSize : Int) - 1)
    (hgy0 : 0 ≤ s.gridY) (hgy1 : s.gridY ≤ (gridSize : Int) - 1)
    (hne : ¬ (max 0 (min ((gridSize : Int) - 1) (s.gridX + dir.1))
                = s.gridX ∧
              max 0 (min ((gridSize : Int) - 1) (s.gridY + dir.2))
                = s.gridY))
    (hblock : tc.canMoveTo s.gridX s.gridY
        (max 0 (min ((gridSize : Int) - 1) (s.gridX + dir.1)))
        (max 0 (min ((gridSize : Int) - 1) (s.gridY + dir.2))) = false) :
    (dragSystemUpdate gridSize cellSize (some tc) true d s).2.velX = 0 ∧
    (dragSystemUpdate gridSize cellSize (some tc) true d s).2.velY = 0 ∧
    (dragSystemUpdate gridSize cellSize (some tc) true d s).2.target
        = none ∧
    (dragSystemUpdate gridSize cellSize (some tc) true d s).2.moving
        = false ∧
    (dragSystemUpdate gridSize cellSize (some tc) true d s).2.gridX
        = s.gridX ∧
    (dragSystemUpdate gridSize cellSize (some tc) true d s).2.gridY
        = s.gridY ∧
    (dragSystemUpdate gridSize cellSize (some tc) true d s).2.posX
        = s.posX ∧
    (dragSystemUpdate gridSize cellSize (some tc) true d s).2.posY
        = s.posY ∧
    (dragSystemUpdate gridSize cellSize (some tc) true d s).1.gameDirection
        = blockedSignal ∧
    (dragSystemUpdate gridSize cellSize (some tc) true d s).1.currentDirection
        = none := by
  have hupd := updateGridPosition_at_center gridSize cellSize s hc
    hposx hposy hgx0 hgx1 hgy0 hgy1
  have hcen := isAtGridCenter_of_center cellSize s hposx hposy
  obtain ⟨nd, cd, gd⟩ := d
  simp only at hnd
  subst hnd
  unfold dragSystemUpdate
  rw [if_neg (by simp)]
  simp only [hupd]
  rw [if_pos (Or.inl hcen), if_neg hne,
    if_pos (by simp [dragBlocked, hblock])]
  exact ⟨rfl, rfl, rfl, rfl, rfl, rfl, rfl, rfl, rfl, rfl⟩

/-- Drag state for the C5 witness: candidate direction right, already
committed right. -/
def demoDragState : DragState := ⟨some (1, 0), some (1, 0), "右"⟩

/-- Entity state for the C5 witness: resting at the center of cell (10,10)
with water at (11,10) in `demoSnapTerrain`. -/
def demoBlockState : EntityState :=
  ⟨525, 525, 100, 0, 100, 10, 10, some (575, 525), true⟩

/-- C5 at a concrete input: holding "right" at (10,10) against water at
(11,10) leaves the entity at (10,10) with zero velocity, no target, and the
blocked signal raised. -/
theorem drag_blocked_stops_and_signals_witness :
    (dragSystemUpdate 30 50 (some demoSnapTerrain) true demoDragState
        demoBlockState).2.velX = 0 ∧
    (dragSystemUpdate 30 50 (some demoSnapTerrain) true demoDragState
        demoBlockState).2.target = none ∧
    (dragSystemUpdate 30 50 (some demoSnapTerrain) true demoDragState
        demoBlockState).2.gridX = 10 ∧
    (dragSystemUpdate 30 50 (some demoSnapTerrain) true demoDragState
        demoBlockState).1.gameDirection = blockedSignal := by
  have h := drag_blocked_stops_and_signals 30 50 demoSnapTerrain
    demoDragState demoBlockState (1, 0) (by norm_num) rfl
    (by norm_num [demoBlockState]) (by norm_num [demoBlockState])
    (by decide) (by decide) (by decide) (by decide) (by decide) (by decide)
  exact ⟨h.1, h.2.2.1, h.2.2.2.2.1, h.2.2.2.2.2.2.2.2.1⟩

/-! ## The `moving == true iff target != null` invariant (C8) -/

/-- The kinematic-state invariant of the spec: the moving flag is set
exactly when a target is present. -/
def kinematicInv (s : EntityState) : Prop :=
  s.moving = true ↔ s.target ≠ none

lemma kinematicInv_clearTarget (s : EntityState) :
    kinematicInv s.clearTarget := by
  simp [kinematicInv, EntityState.clearTarget]

lemma kinematicInv_clearTarget_stop (s : EntityState) :
    kinematicInv ((s.clearTarget).stop) := by
  simp [kinematicInv, EntityState.clearTarget, EntityState.stop]

lemma kinematicInv_setTarget (s : EntityState) (x y : ℚ) :
    kinematicInv (s.setTarget x y) := by
  simp [kinematicInv, EntityState.setTarget]

/-- **C8.** The invariant `moving = true ↔ target ≠ none` is preserved by
every stage of the per-frame pipeline — drag reconciliation, kinematic
integration, and grid snapping — for any inputs: every branch that installs
a target also sets `moving`, and every branch that clears `moving` also
clears the target. -/
theorem moving_iff_target_preserved (gridSize : Nat) (cellSize : ℚ)
    (terrain : Option TerrainComponent) (canMove : Bool) (d : DragState)
    (adv : ℚ × ℚ) (deltaSeconds : ℚ) (s : EntityState)
    (hinv : kinematicInv s) :
    kinematicInv (dragSystemUpdate gridSize cellSize terrain canMove d s).2 ∧
    kinematicInv (movementSystemUpdate adv deltaSeconds s) ∧
    kinematicInv (gridSystemUpdate gridSize cellSize terrain s) := by
  refine ⟨?_, ?_, ?_⟩
  · unfold dragSystemUpdate
    repeat' first
      | exact hinv
      | exact kinematicInv_clearTarget_stop _
      | exact kinematicInv_clearTarget _
      | exact kinematicInv_setTarget _ _ _
      | split
      | dsimp only
  · unfold movementSystemUpdate moveToTarget
    repeat' first
      | exact hinv
      | exact kinematicInv_clearTarget_stop _
      | exact kinematicInv_clearTarget _
      | exact kinematicInv_setTarget _ _ _
      | split
      | dsimp only
  · unfold gridSystemUpdate
    repeat' first
      | exact hinv
      | exact kinematicInv_clearTarget_stop _
      | exact kinematicInv_clearTarget _
      | exact kinematicInv_setTarget _ _ _
      | split
      | dsimp only

/-- C8 at a concrete input: a state holding the invariant still holds it
after each pipeline stage. -/
theorem moving_iff_target_preserved_witness :
    kinematicInv demoBlockState ∧
    kinematicInv (movementSystemUpdate (526, 525) (1 / 100)
        demoBlockState) := by
  have hinv : kinematicInv demoBlockState := by
    simp [kinematicInv, demoBlockState]
  exact ⟨hinv, (moving_iff_target_preserved 30 50 (some demoSnapTerrain)
    true demoDragState (526, 525) (1 / 100) demoBlockState hinv).2.1⟩

/-! ## `ItemGenerator` (item placement)

`Math.random()` shows up in two roles: drawing a candidate cell
(`Math.floor(Math.random() * gridSize)` twice) and the per-kind
acceptance gate (`Math.random() > config.probability`); both are embedded
as oracle streams indexed by call counters, so every theorem below holds
for every possible random trace.  The JS `occupiedPositions` set of
`"x,y"` strings is a set of coordinate pairs (the key encoding is
injective). -/

structure ForbiddenArea where
  x : Int
  y : Int
  radius : ℚ
deriving DecidableEq

/-- `_isInForbiddenArea`: inside some zone circle.  The source compares
`Math.sqrt(d2) <= radius`; for `radius ≥ 0` this is `d2 ≤ radius²` and for
`radius < 0` it is false, which the conjunction below captures exactly. -/
def isInForbiddenArea (areas : List ForbiddenArea) (gridX gridY : Int) :
    Bool :=
  areas.any (fun area => decide (0 ≤ area.radius ∧
    ((gridX : ℚ) - area.x) ^ 2 + ((gridY : ℚ) - area.y) ^ 2
      ≤ area.radius ^ 2))

/-- `_isValidPosition`: in bounds, unoccupied, outside every forbidden
zone, and (when a terrain component is attached) walkable. -/
def isValidPosition (gridSize : Nat) (areas : List ForbiddenArea)
    (terrain : Option TerrainComponent) (occ : Finset (Int × Int))
    (gridX gridY : Int) : Bool :=
  if gridX < 0 ∨ (gridSize : Int) ≤ gridX ∨
      gridY < 0 ∨ (gridSize : Int) ≤ gridY then false
  else if (gridX, gridY) ∈ occ then false
  else if isInForbiddenArea areas gridX gridY then false
  else if terrainBlocks terrain gridX gridY then false
  else true

/-- The position-independent part of `_isValidPosition`. -/
def staticValid (gridSize : Nat) (areas : List ForbiddenArea)
    (terrain : Option TerrainComponent) (p : Int × Int) : Prop :=
  (0 ≤ p.1 ∧ p.1 < (gridSize : Int) ∧ 0 ≤ p.2 ∧ p.2 < (gridSize : Int)) ∧
  isInForbiddenArea areas p.1 p.2 = false ∧
  terrainBlocks terrain p.1 p.2 = false

/-- `_getRandomValidPosition`: up to 100 draws from the cell oracle,
returning the first valid cell together with the advanced oracle index. -/
def getRandomValidPosition (gridSize : Nat) (areas : List ForbiddenArea)
    (terrain : Option TerrainComponent) (occ : Finset (Int × Int))
    (draws : Nat → Int × Int) : Nat → Nat → Option ((Int × Int) × Nat)
  | _, 0 => none
  | k, Nat.succ fuel =>
    let p := draws k
    if isValidPosition gridSize areas terrain occ p.1 p.2 then
      some (p, k + 1)
    else getRandomValidPosition gridSize areas terrain occ draws (k + 1) fuel

/-- The mutable state threaded through `generateItemType`: the session-wide
occupied set, the items placed for the current kind, and the two oracle
indices. -/
structure PlacementState where
  occupied : Finset (Int × Int)
  placed : List (Int × Int)
  drawIdx : Nat
  gateIdx : Nat

/-- The `while (items.length < targetCount && attempts < maxAttempts)` loop
of `generateItemType`; `fuel` is the remaining attempt budget, `gate k`
is the outcome of the `Math.random() > config.probability` skip test. -/
def genLoop (gridSize : Nat) (areas : List ForbiddenArea)
    (terrain : Option TerrainComponent) (draws : Nat → Int × Int)
    (gate : Nat → Bool) (targetCount : Nat) :
    Nat → PlacementState → PlacementState
  | 0, st => st
  | Nat.succ fuel, st =>
    if st.placed.length < targetCount then
      match getRandomValidPosition gridSize areas terrain st.occupied
          draws st.drawIdx 100 with
      | none => genLoop gridSize areas terrain draws gate targetCount fuel
          { st with drawIdx := st.drawIdx + 100 }
      | some (p, k2) =>
        if gate st.gateIdx then
          genLoop gridSize areas terrain draws gate targetCount fuel
            { st with drawIdx := k2, gateIdx := st.gateIdx + 1 }
        else
          genLoop gridSize areas terrain draws gate targetCount fuel
            { occupied := insert p st.occupied,
              placed := st.placed ++ [p],
              drawIdx := k2, gateIdx := st.gateIdx + 1 }
    else st

/-- `generateItemType`: fresh per-kind item list, attempt budget
`targetCount * 10`. -/
def generateItemType (gridSize : Nat) (areas : List ForbiddenArea)
    (terrain : Option TerrainComponent) (draws : Nat → Int × Int)
    (gate : Nat → Bool) (targetCount : Nat) (st : PlacementState) :
    PlacementState :=
  genLoop gridSize areas terrain draws gate targetCount (targetCount * 10)
    { st with placed := [] }

/-- `generateAllItems`: clear the occupied set, then place coins
(`count = 8`) and seeds (`count = 6`) sharing the occupied set; returns the
two placement lists. -/
def generateAllItems (gridSize : Nat) (areas : List ForbiddenArea)
    (terrain : Option TerrainComponent) (draws : Nat → Int × Int)
    (gate : Nat → Bool) : List (Int × Int) × List (Int × Int) :=
  let st1 := generateItemType gridSize areas terrain draws gate 8
    ⟨∅, [], 0, 0⟩
  let st2 := generateItemType gridSize areas terrain draws gate 6 st1
  (st1.placed, st2.placed)

lemma isValidPosition_iff (gridSize : Nat) (areas : List ForbiddenArea)
    (terrain : Option TerrainComponent) (occ : Finset (Int × Int))
    (x y : Int) :
    isValidPosition gridSize areas terrain occ x y = true ↔
      staticValid gridSize areas terrain (x, y) ∧ (x, y) ∉ occ := by
  unfold isValidPosition staticValid
  split_ifs with h1 h2 h3 h4
  · simp only [Bool.false_eq_true, false_iff]
    rintro ⟨⟨⟨b1, b2, b3, b4⟩, -, -⟩, -⟩
    omega
  · simp only [Bool.false_eq_true, false_iff]
    rintro ⟨-, hocc⟩
    exact hocc h2
  · simp only [Bool.false_eq_true, false_iff]
    rintro ⟨⟨-, hf, -⟩, -⟩
    rw [h3] at hf
    cases hf
  · simp only [Bool.false_eq_true, false_iff]
    rintro ⟨⟨-, -, ht⟩, -⟩
    rw [h4] at ht
    cases ht
  · constructor
    · intro _
      push_neg at h1
      exact ⟨⟨⟨by omega, by omega, by omega, by omega⟩,
        by simpa using h3, by simpa using h4⟩, h2⟩
    · intro _
      rfl

lemma getRandomValidPosition_valid (gridSize : Nat)
    (areas : List ForbiddenArea) (terrain : Option TerrainComponent)
    (occ : Finset (Int × Int)) (draws : Nat → Int × Int) :
    ∀ fuel k p k2,
      getRandomValidPosition gridSize areas terrain occ draws k fuel
        = some (p, k2) →
      isValidPosition gridSize areas terrain occ p.1 p.2 = true := by
  intro fuel
  induction fuel with
  | zero =>
    intro k p k2 h
    simp [getRandomValidPosition] at h
  | succ n ih =>
    intro k p k2 h
    simp only [getRandomValidPosition] at h
    split_ifs at h with hv
    · rw [Option.some.injEq, Prod.mk.injEq] at h
      rw [← h.1]
      exact hv
    · exact ih (k + 1) p k2 h

lemma genLoop_spec (gridSize : Nat) (areas : List ForbiddenArea)
    (terrain : Option TerrainComponent) (draws : Nat → Int × Int)
    (gate : Nat → Bool) (targetCount : Nat) :
    ∀ fuel st,
      ∃ new : List (Int × Int),
        (genLoop gridSize areas terrain draws gate targetCount
            fuel st).placed = st.placed ++ new ∧
        new.Nodup ∧
        (∀ p ∈ new, staticValid gridSize areas terrain p ∧
          p ∉ st.occupied) ∧
        (genLoop gridSize areas terrain draws gate targetCount
            fuel st).occupied = st.occupied ∪ new.toFinset ∧
        (genLoop gridSize areas terrain draws gate targetCount
            fuel st).placed.length
          ≤ max st.placed.length targetCount := by
  intro fuel
  induction fuel with
  | zero =>
    intro st
    exact ⟨[], by simp [genLoop], by simp, by simp, by simp [genLoop],
      by simp [genLoop]⟩
  | succ n ih =>
    intro st
    rw [genLoop]
    by_cases hlen : st.placed.length < targetCount
    · rw [if_pos hlen]
      rcases hr : getRandomValidPosition gridSize areas terrain st.occupied
          draws st.drawIdx 100 with _ | ⟨p, k2⟩
      · exact ih { st with drawIdx := st.drawIdx + 100 }
      · dsimp only
        by_cases hg : gate st.gateIdx = true
        · rw [if_pos hg]
          exact ih { st with drawIdx := k2, gateIdx := st.gateIdx + 1 }
        · rw [if_neg hg]
          obtain ⟨new, h1, h2, h3, h4, h5⟩ :=
            ih ⟨insert p st.occupied, st.placed ++ [p], k2, st.gateIdx + 1⟩
          have hpv := getRandomValidPosition_valid gridSize areas terrain
            st.occupied draws 100 st.drawIdx p k2 hr
          have hps := (isValidPosition_iff gridSize areas terrain
            st.occupied p.1 p.2).mp hpv
          refine ⟨p :: new, ?_, ?_, ?_, ?_, ?_⟩
          · rw [h1]
            simp
          · refine List.Nodup.cons ?_ h2
            intro hmem
            exact (h3 p hmem).2 (Finset.mem_insert_self p _)
          · rintro q hq
            rcases List.mem_cons.mp hq with rfl | hq2
            · exact ⟨hps.1, hps.2⟩
            · refine ⟨(h3 q hq2).1, fun hmem => (h3 q hq2).2 ?_⟩
              exact Finset.mem_insert_of_mem hmem
          · rw [h4, List.toFinset_cons]
            show insert p st.occupied ∪ new.toFinset
              = st.occupied ∪ insert p new.toFinset
            rw [Finset.insert_union, Finset.union_insert]
          · have hl : (st.placed ++ [p]).length = st.placed.length + 1 := by
              simp
            rw [hl] at h5
            calc (genLoop gridSize areas terrain draws gate targetCount n
                  ⟨insert p st.occupied, st.placed ++ [p], k2,
                    st.gateIdx + 1⟩).placed.length
                ≤ max (st.placed.length + 1) targetCount := h5
              _ = targetCount := Nat.max_eq_right hlen
              _ ≤ max st.placed.length targetCount := le_max_right _ _
    · rw [if_neg hlen]
      exact ⟨[], by simp, by simp, by simp, by simp, le_max_left _ _⟩

/-- **C9.** For every random trace: every item placed by
`generateAllItems` (8 coins, then 6 seeds, sharing one session-wide
occupied set) lies on an in-bounds walkable cell outside every forbidden
zone; no two items of the session share a cell; and at most the configured
count of items is created per kind. -/
theorem items_placed_valid_distinct_bounded (gridSize : Nat)
    (areas : List ForbiddenArea) (tc : TerrainComponent)
    (draws : Nat → Int × Int) (gate : Nat → Bool) :
    (∀ p ∈ (generateAllItems gridSize areas (some tc) draws gate).1 ++
        (generateAllItems gridSize areas (some tc) draws gate).2,
      (0 ≤ p.1 ∧ p.1 < (gridSize : Int) ∧
       0 ≤ p.2 ∧ p.2 < (gridSize : Int)) ∧
      tc.isWalkable p.1 p.2 = true ∧
      (∀ area ∈ areas, ¬ (0 ≤ area.radius ∧
        ((p.1 : ℚ) - area.x) ^ 2 + ((p.2 : ℚ) - area.y) ^ 2
          ≤ area.radius ^ 2))) ∧
    ((generateAllItems gridSize areas (some tc) draws gate).1 ++
      (generateAllItems gridSize areas (some tc) draws gate).2).Nodup ∧
    (generateAllItems gridSize areas (some tc) draws gate).1.length ≤ 8 ∧
    (generateAllItems gridSize areas (some tc) draws gate).2.length ≤ 6 := by
  obtain ⟨new1, c1, c2, c3, c4, c5⟩ := genLoop_spec gridSize areas (some tc)
    draws gate 8 (8 * 10) (⟨∅, ([] : List (Int × Int)), 0, 0⟩ :
      PlacementState)
  set st1 := genLoop gridSize areas (some tc) draws gate 8 (8 * 10)
    ⟨∅, [], 0, 0⟩ with hst1
  obtain ⟨new2, d1, d2, d3, d4, d5⟩ := genLoop_spec gridSize areas (some tc)
    draws gate 6 (6 * 10) { st1 with placed := [] }
  have hplaced1 : st1.placed = new1 := by simpa using c1
  have hocc1 : st1.occupied = new1.toFinset := by simpa using c4
  have hstatic : ∀ p, staticValid gridSize areas (some tc) p →
      (0 ≤ p.1 ∧ p.1 < (gridSize : Int) ∧
       0 ≤ p.2 ∧ p.2 < (gridSize : Int)) ∧
      tc.isWalkable p.1 p.2 = true ∧
      (∀ area ∈ areas, ¬ (0 ≤ area.radius ∧
        ((p.1 : ℚ) - area.x) ^ 2 + ((p.2 : ℚ) - area.y) ^ 2
          ≤ area.radius ^ 2)) := by
    rintro p ⟨hb, hf, ht⟩
    refine ⟨hb, ?_, ?_⟩
    · simpa [terrainBlocks] using ht
    · intro area hmem
      simp only [isInForbiddenArea, List.any_eq_false, decide_eq_true_eq]
        at hf
      exact hf area hmem
  have hres1 : (generateAllItems gridSize areas (some tc) draws gate).1
      = new1 := by
    simp only [generateAllItems, generateItemType]
    exact hplaced1
  have hres2 : (generateAllItems gridSize areas (some tc) draws gate).2
      = new2 := by
    simp only [generateAllItems, generateItemType]
    simpa using d1
  rw [hres1, hres2]
  refine ⟨?_, ?_, ?_, ?_⟩
  · intro p hp
    rcases List.mem_append.mp hp with hp1 | hp2
    · exact hstatic p (c3 p hp1).1
    · exact hstatic p (d3 p hp2).1
  · refine List.Nodup.append ?_ d2 ?_
    · rw [← hplaced1]
      simpa [hplaced1] using c2
    · intro a ha1 ha2
      have := (d3 a ha2).2
      rw [hocc1] at this
      exact this (List.mem_toFinset.mpr ha1)
  · calc new1.length = st1.placed.length := by rw [hplaced1]
      _ ≤ max 0 8 := by simpa using c5
      _ = 8 := rfl
  · have : new2.length ≤ max 0 6 := by
      have hh := d5
      rw [d1] at hh
      simpa using hh
    simpa using this

/-! ## `MapGenerator` (terrain generation)

`generateMap` runs up to `maxRetries` attempts, each one the pipeline
`_createBaseMap → _expandFromCenter → _addEdgeWater`; an attempt is accepted
iff `_isConnected` holds, otherwise `_createDefaultMap` is the fallback.
The two stochastic pipeline stages draw `Math.random()` against weights
built from irrational distances; since the accepted/rejected decision
depends only on the grid each attempt produces, the attempt pipeline is
embedded as an oracle `attempt : Nat → Grid` ranging over every grid
sequence any random trace can produce, and `_isConnected` and
`_createDefaultMap` are embedded literally.  The BFS queue loop of
`_isConnected` is given the fuel `size * size`, which `bfsLoop_fuel_stable`
proves is never exhausted, so the fueled loop computes the loop's
fixpoint. -/

/-- A terrain grid: cell `(x, y)` holds a terrain type id.  Attempts only
ever hold `WATER`/`LAND`; only in-range cells are ever consulted. -/
def Grid := Nat → Nat → Nat

/-- All cells in the JS scan order (`x` outer, `y` inner). -/
def allCells (size : Nat) : List (Nat × Nat) :=
  (List.range size).product (List.range size)

/-- The four BFS directions, in source order: up, down, left, right. -/
def directions : List (Int × Int) := [(0, -1), (0, 1), (-1, 0), (1, 0)]

/-- One candidate neighbour with the in-bounds check of the BFS loop. -/
def stepCell (size : Nat) (p : Nat × Nat) (d : Int × Int) :
    Option (Nat × Nat) :=
  let nx : Int := (p.1 : Int) + d.1
  let ny : Int := (p.2 : Int) + d.2
  if 0 ≤ nx ∧ nx < (size : Int) ∧ 0 ≤ ny ∧ ny < (size : Int) then
    some (nx.toNat, ny.toNat)
  else none

/-- The inner `for (const dir of directions)` body: mark and enqueue every
unvisited in-bounds land neighbour of the dequeued cell `p`, bumping the
visited-land counter. -/
def processNeighbors (size : Nat) (g : Grid) (p : Nat × Nat) :
    List (Int × Int) → Finset (Nat × Nat) → List (Nat × Nat) → Nat →
    Finset (Nat × Nat) × List (Nat × Nat) × Nat
  | [], v, q, c => (v, q, c)
  | d :: ds, v, q, c =>
    match stepCell size p d with
    | none => processNeighbors size g p ds v q c
    | some nb =>
      if nb ∉ v ∧ g nb.1 nb.2 = LAND then
        processNeighbors size g p ds (insert nb v) (q ++ [nb]) (c + 1)
      else processNeighbors size g p ds v q c

/-- The `while (queue.length > 0)` loop of `_isConnected`, returning the
visited-land count; `fuel` bounds the number of dequeues (each cell is
enqueued at most once, so `size * size` dequeues always suffice —
`bfsLoop_fuel_stable`). -/
def bfsLoop (size : Nat) (g : Grid) :
    Nat → Finset (Nat × Nat) → List (Nat × Nat) → Nat → Nat
  | _, _, [], c => c
  | 0, _, _ :: _, c => c
  | Nat.succ fuel, v, p :: rest, c =>
    let r := processNeighbors size g p directions v rest c
    bfsLoop size g fuel r.1 r.2.1 r.2.2

/-- The land-cell total of `_isConnected`. -/
def totalLandCount (size : Nat) (g : Grid) : Nat :=
  ((allCells size).filter (fun p => decide (g p.1 p.2 = LAND))).length

/-- `_isConnected`: no land means connected; otherwise BFS from the first
land cell in scan order and compare visited-land and total-land counts. -/
def isConnectedMap (size : Nat) (g : Grid) : Bool :=
  match (allCells size).find? (fun p => decide (g p.1 p.2 = LAND)) with
  | none => true
  | some s =>
    decide (bfsLoop size g (size * size) {s} [s] 1 = totalLandCount size g)

/-- Squared Euclidean distance between cells. -/
def dist2 (x y cx cy : Nat) : Int :=
  ((x : Int) - (cx : Int)) ^ 2 + ((y : Int) - (cy : Int)) ^ 2

/-- `_createDefaultMap`: all-water base, then land on every cell within
`radius = Math.floor(size * 0.35)` of the center `(⌊size/2⌋, ⌊size/2⌋)`
(`0.35 = 7/20` exactly, and `√d2 ≤ radius ↔ d2 ≤ radius²`). -/
def createDefaultMap (size : Nat) : Grid := fun x y =>
  if x < size ∧ y < size ∧
      dist2 x y (size / 2) (size / 2) ≤ ((size * 7 / 20 : Nat) : Int) ^ 2
  then LAND else WATER

/-- `generateMap`: return the first of the `maxRetries` attempts that
passes `_isConnected`, else the default disk map. -/
def generateMap (size maxRetries : Nat) (attempt : Nat → Grid) : Grid :=
  match (List.range maxRetries).find?
      (fun k => isConnectedMap size (attempt k)) with
  | some k => attempt k
  | none => createDefaultMap size

/-- A land cell of the grid. -/
def landCell (size : Nat) (g : Grid) (p : Nat × Nat) : Prop :=
  p.1 < size ∧ p.2 < size ∧ g p.1 p.2 = LAND

/-- 4-directional adjacency of cells. -/
def adjacentCell (p q : Nat × Nat) : Prop :=
  (p.1 = q.1 ∧ (p.2 + 1 = q.2 ∨ q.2 + 1 = p.2)) ∨
  (p.2 = q.2 ∧ (p.1 + 1 = q.1 ∨ q.1 + 1 = p.1))

/-- One legal step of a land path. -/
def landStep (size : Nat) (g : Grid) (p q : Nat × Nat) : Prop :=
  landCell size g p ∧ landCell size g q ∧ adjacentCell p q

/-- Connectivity: every land cell reaches every land cell through land
cells, 4-directionally. -/
def gridConnected (size : Nat) (g : Grid) : Prop :=
  ∀ p q, landCell size g p → landCell size g q →
    Relation.ReflTransGen (landStep size g) p q

lemma mem_allCells (size : Nat) (p : Nat × Nat) :
    p ∈ allCells size ↔ p.1 < size ∧ p.2 < size := by
  obtain ⟨x, y⟩ := p
  simp [allCells, List.mem_product]

lemma allCells_nodup (size : Nat) : (allCells size).Nodup :=
  List.Nodup.product (List.nodup_range size) (List.nodup_range size)

lemma stepCell_spec (size : Nat) (p : Nat × Nat) (d : Int × Int)
    (hd : d ∈ directions) (a b : Nat)
    (h : stepCell size p d = some (a, b)) :
    a < size ∧ b < size ∧ adjacentCell p (a, b) := by
  fin_cases hd <;>
  · simp only [stepCell] at h
    split_ifs at h with hb
    rw [Option.some.injEq, Prod.mk.injEq] at h
    obtain ⟨ha, hbb⟩ := h
    simp only at ha hbb hb
    unfold adjacentCell
    simp only
    omega

lemma processNeighbors_spec (size : Nat) (g : Grid) (p : Nat × Nat) :
    ∀ (ds : List (Int × Int)), (∀ d ∈ ds, d ∈ directions) →
    ∀ v q c,
      v ⊆ (processNeighbors size g p ds v q c).1 ∧
      ((processNeighbors size g p ds v q c).2.2 + v.card
        = c + (processNeighbors size g p ds v q c).1.card) ∧
      (∀ x ∈ (processNeighbors size g p ds v q c).1,
        x ∈ v ∨ (landCell size g x ∧ adjacentCell p x)) ∧
      (∀ x ∈ (processNeighbors size g p ds v q c).2.1,
        x ∈ q ∨ x ∈ (processNeighbors size g p ds v q c).1) ∧
      ((processNeighbors size g p ds v q c).2.1.length + v.card
        = q.length + (processNeighbors size g p ds v q c).1.card) := by
  intro ds
  induction ds with
  | nil =>
    intro _ v q c
    exact ⟨subset_rfl, by simp [processNeighbors],
      fun x hx => Or.inl hx, fun x hx => Or.inl hx,
      by simp [processNeighbors]⟩
  | cons d ds ih =>
    intro hds v q c
    have hdd : d ∈ directions := hds d (List.mem_cons_self d ds)
    have hds2 : ∀ d2 ∈ ds, d2 ∈ directions :=
      fun d2 h2 => hds d2 (List.mem_cons_of_mem d h2)
    rcases hstep : stepCell size p d with _ | nb
    · have hred : processNeighbors size g p (d :: ds) v q c
          = processNeighbors size g p ds v q c := by
        simp only [processNeighbors, hstep]
      rw [hred]
      exact ih hds2 v q c
    · obtain ⟨hnb1, hnb2, hnb3⟩ := stepCell_spec size p d hdd nb.1 nb.2
        hstep
      by_cases hnew : nb ∉ v ∧ g nb.1 nb.2 = LAND
      · have hred : processNeighbors size g p (d :: ds) v q c
            = processNeighbors size g p ds (insert nb v) (q ++ [nb])
                (c + 1) := by
          simp only [processNeighbors, hstep]
          rw [if_pos hnew]
        rw [hred]
        obtain ⟨s1, s2, s3, s4, s5⟩ :=
          ih hds2 (insert nb v) (q ++ [nb]) (c + 1)
        have hcard : (insert nb v).card = v.card + 1 :=
          Finset.card_insert_of_not_mem hnew.1
        refine ⟨(Finset.subset_insert nb v).trans s1, ?_, ?_, ?_, ?_⟩
        · rw [hcard] at s2
          omega
        · intro x hx
          rcases s3 x hx with hx2 | hx2
          · rcases Finset.mem_insert.mp hx2 with rfl | hx3
            · exact Or.inr ⟨⟨hnb1, hnb2, hnew.2⟩, hnb3⟩
            · exact Or.inl hx3
          · exact Or.inr hx2
        · intro x hx
          rcases s4 x hx with hx2 | hx2
          · rcases List.mem_append.mp hx2 with hx3 | hx3
            · exact Or.inl hx3
            · have hxnb : x = nb := by simpa using hx3
              exact Or.inr (s1 (hxnb ▸ Finset.mem_insert_self nb v))
          · exact Or.inr hx2
        · rw [hcard] at s5
          simp only [List.length_append, List.length_singleton] at s5
          omega
      · have hred : processNeighbors size g p (d :: ds) v q c
            = processNeighbors size g p ds v q c := by
          simp only [processNeighbors, hstep]
          rw [if_neg hnew]
        rw [hred]
        exact ih hds2 v q c

/-- Soundness of the BFS loop: whatever the fuel, the returned counter is
the cardinality of a visited set whose members are land cells reachable
from the seed. -/
lemma bfsLoop_sound (size : Nat) (g : Grid) (s : Nat × Nat) :
    ∀ fuel v q c,
      c = v.card →
      (∀ x ∈ v, landCell size g x ∧
        Relation.ReflTransGen (landStep size g) s x) →
      (∀ x ∈ q, x ∈ v) →
      ∃ vF : Finset (Nat × Nat),
        bfsLoop size g fuel v q c = vF.card ∧
        (∀ x ∈ vF, landCell size g x ∧
          Relation.ReflTransGen (landStep size g) s x) ∧
        v ⊆ vF := by
  intro fuel
  induction fuel with
  | zero =>
    intro v q c hc hv hq
    cases q with
    | nil => exact ⟨v, by simpa [bfsLoop] using hc, hv, subset_rfl⟩
    | cons p rest => exact ⟨v, by simpa [bfsLoop] using hc, hv, subset_rfl⟩
  | succ n ih =>
    intro v q c hc hv hq
    cases q with
    | nil => exact ⟨v, by simpa [bfsLoop] using hc, hv, subset_rfl⟩
    | cons p rest =>
      have hp : p ∈ v := hq p (List.mem_cons_self p rest)
      obtain ⟨hpl, hpr⟩ := hv p hp
      obtain ⟨s1, s2, s3, s4, s5⟩ := processNeighbors_spec size g p
        directions (fun d hd => hd) v rest c
      set r := processNeighbors size g p directions v rest c with hr
      have hstep : bfsLoop size g (n + 1) v (p :: rest) c
          = bfsLoop size g n r.1 r.2.1 r.2.2 := rfl
      have hc2 : r.2.2 = r.1.card := by omega
      have hv2 : ∀ x ∈ r.1, landCell size g x ∧
          Relation.ReflTransGen (landStep size g) s x := by
        intro x hx
        rcases s3 x hx with hx2 | ⟨hxl, hxadj⟩
        · exact hv x hx2
        · exact ⟨hxl, hpr.tail ⟨hpl, hxl, hxadj⟩⟩
      have hq2 : ∀ x ∈ r.2.1, x ∈ r.1 := by
        intro x hx
        rcases s4 x hx with hx2 | hx2
        · exact s1 (hq x (List.mem_cons_of_mem p hx2))
        · exact hx2
      obtain ⟨vF, f1, f2, f3⟩ := ih r.1 r.2.1 r.2.2 hc2 hv2 hq2
      exact ⟨vF, by rw [hstep]; exact f1, f2, s1.trans f3⟩

/-- The BFS fuel `size * size` is never exhausted: the loop's value agrees
with any larger fuel, so the fueled loop computes the `while` loop's
fixpoint. -/
lemma bfsLoop_fuel_stable (size : Nat) (g : Grid) :
    ∀ fuel fuel2 (v : Finset (Nat × Nat)) q c,
      q.length + size * size ≤ fuel + v.card →
      fuel ≤ fuel2 →
      v ⊆ (allCells size).toFinset →
      bfsLoop size g fuel v q c = bfsLoop size g fuel2 v q c := by
  intro fuel
  induction fuel with
  | zero =>
    intro fuel2 v q c hbound h12 hsub
    cases q with
    | nil => cases fuel2 <;> rfl
    | cons p rest =>
      exfalso
      have hcard : v.card ≤ size * size := by
        calc v.card ≤ (allCells size).toFinset.card :=
              Finset.card_le_card hsub
          _ ≤ (allCells size).length := (allCells size).toFinset_card_le
          _ = size * size := by
              rw [allCells]
              show ((List.range size) ×ˢ (List.range size)).length
                = size * size
              rw [List.length_product]
              simp
      simp only [List.length_cons] at hbound
      omega
  | succ n ih =>
    intro fuel2 v q c hbound h12 hsub
    cases q with
    | nil => cases fuel2 <;> rfl
    | cons p rest =>
      cases fuel2 with
      | zero => omega
      | succ m =>
        obtain ⟨s1, s2, s3, s4, s5⟩ := processNeighbors_spec size g p
          directions (fun d hd => hd) v rest c
        set r := processNeighbors size g p directions v rest c with hr
        have hb2 : r.2.1.length + size * size ≤ n + r.1.card := by
          simp only [List.length_cons] at hbound
          omega
        have hsub2 : r.1 ⊆ (allCells size).toFinset := by
          intro x hx
          rcases s3 x hx with hx2 | ⟨⟨hb1, hb2x, -⟩, -⟩
          · exact hsub hx2
          · exact List.mem_toFinset.mpr ((mem_allCells size x).mpr ⟨hb1, hb2x⟩)
        have e1 : bfsLoop size g (n + 1) v (p :: rest) c
            = bfsLoop size g n r.1 r.2.1 r.2.2 := rfl
        have e2 : bfsLoop size g (m + 1) v (p :: rest) c
            = bfsLoop size g m r.1 r.2.1 r.2.2 := rfl
        rw [e1, e2]
        exact ih m r.1 r.2.1 r.2.2 hb2 (by omega) hsub2

lemma totalLandCount_eq_card (size : Nat) (g : Grid) :
    totalLandCount size g = ((allCells size).filter
      (fun p => decide (g p.1 p.2 = LAND))).toFinset.card :=
  (List.toFinset_card_of_nodup ((allCells_nodup size).filter _)).symm

lemma landStep_symm (size : Nat) (g : Grid) :
    Symmetric (landStep size g) := by
  rintro p q ⟨hp, hq, hadj⟩
  refine ⟨hq, hp, ?_⟩
  unfold adjacentCell at hadj ⊢
  omega

/-- If the source's `_isConnected` check passes, the grid really is
connected: all land cells lie in one 4-connected component. -/
lemma isConnectedMap_sound (size : Nat) (g : Grid)
    (h : isConnectedMap size g = true) : gridConnected size g := by
  unfold isConnectedMap at h
  rcases hfind : (allCells size).find?
      (fun p => decide (g p.1 p.2 = LAND)) with _ | s
  · intro p q hp hq
    exfalso
    have hnone := List.find?_eq_none.mp hfind p
      ((mem_allCells size p).mpr ⟨hp.1, hp.2.1⟩)
    simp only [decide_eq_true_eq] at hnone
    exact hnone hp.2.2
  · rw [hfind, decide_eq_true_eq] at h
    have hsmem : s ∈ allCells size := List.mem_of_find?_eq_some hfind
    have hsland : g s.1 s.2 = LAND := by
      have := List.find?_some hfind
      simpa using this
    have hsbounds := (mem_allCells size s).mp hsmem
    have hslandCell : landCell size g s :=
      ⟨hsbounds.1, hsbounds.2, hsland⟩
    obtain ⟨vF, f1, f2, f3⟩ := bfsLoop_sound size g s (size * size)
      {s} [s] 1 (by simp)
      (by
        intro x hx
        rw [Finset.mem_singleton] at hx
        subst hx
        exact ⟨hslandCell, Relation.ReflTransGen.refl⟩)
      (by intro x hx; simpa using hx)
    have hcard : vF.card = totalLandCount size g := by rw [← f1, h]
    set LF := ((allCells size).filter
      (fun p => decide (g p.1 p.2 = LAND))).toFinset with hLF
    have hsubLF : vF ⊆ LF := by
      intro x hx
      obtain ⟨⟨hx1, hx2, hx3⟩, -⟩ := f2 x hx
      rw [hLF, List.mem_toFinset, List.mem_filter]
      exact ⟨(mem_allCells size x).mpr ⟨hx1, hx2⟩, by simpa using hx3⟩
    have hLFcard : LF.card ≤ vF.card := by
      rw [hcard, totalLandCount_eq_card size g]
    have hEq : vF = LF := Finset.eq_of_subset_of_card_le hsubLF hLFcard
    have hreach : ∀ p, landCell size g p →
        Relation.ReflTransGen (landStep size g) s p := by
      intro p hp
      have hmem : p ∈ LF := by
        rw [hLF, List.mem_toFinset, List.mem_filter]
        exact ⟨(mem_allCells size p).mpr ⟨hp.1, hp.2.1⟩,
          by simpa using hp.2.2⟩
      exact (f2 p (hEq ▸ hmem)).2
    intro p q hp hq
    exact Relation.ReflTransGen.trans
      (Relation.ReflTransGen.symmetric (landStep_symm size g) (hreach p hp))
      (hreach q hq)

lemma createDefaultMap_land_iff (size : Nat) (x y : Nat) :
    (createDefaultMap size x y = LAND) ↔
      (x < size ∧ y < size ∧
        dist2 x y (size / 2) (size / 2)
          ≤ ((size * 7 / 20 : Nat) : Int) ^ 2) := by
  unfold createDefaultMap
  split_ifs with h
  · exact iff_of_true rfl h
  · exact iff_of_false (by decide) h

lemma disk_move_x (size : Nat) (x y : Nat) (hx : x ≠ size / 2)
    (hcell : landCell size (createDefaultMap size) (x, y)) :
    ∃ x2, landCell size (createDefaultMap size) (x2, y) ∧
      adjacentCell (x, y) (x2, y) ∧
      ((x2 : Int) - ((size / 2 : Nat) : Int)).natAbs + 1
        = ((x : Int) - ((size / 2 : Nat) : Int)).natAbs := by
  obtain ⟨hxb, hyb, hland⟩ := hcell
  have hd2 := ((createDefaultMap_land_iff size x y).mp hland).2.2
  by_cases hgt : size / 2 < x
  · refine ⟨x - 1, ?_, ?_, ?_⟩
    · rw [landCell]
      refine ⟨by omega, hyb, ?_⟩
      rw [createDefaultMap_land_iff]
      refine ⟨by omega, hyb, ?_⟩
      have hc : ((x - 1 : Nat) : Int) = (x : Int) - 1 := by omega
      unfold dist2 at hd2 ⊢
      rw [hc]
      nlinarith [hd2, (by omega : ((size / 2 : Nat) : Int) + 1 ≤ (x : Int))]
    · unfold adjacentCell
      omega
    · omega
  · refine ⟨x + 1, ?_, ?_, ?_⟩
    · rw [landCell]
      refine ⟨by omega, hyb, ?_⟩
      rw [createDefaultMap_land_iff]
      refine ⟨by omega, hyb, ?_⟩
      have hc : ((x + 1 : Nat) : Int) = (x : Int) + 1 := by omega
      unfold dist2 at hd2 ⊢
      rw [hc]
      nlinarith [hd2, (by omega : (x : Int) + 1 ≤ ((size / 2 : Nat) : Int))]
    · unfold adjacentCell
      omega
    · omega

lemma disk_move_y (size : Nat) (x y : Nat) (hy : y ≠ size / 2)
    (hcell : landCell size (createDefaultMap size) (x, y)) :
    ∃ y2, landCell size (createDefaultMap size) (x, y2) ∧
      adjacentCell (x, y) (x, y2) ∧
      ((y2 : Int) - ((size / 2 : Nat) : Int)).natAbs + 1
        = ((y : Int) - ((size / 2 : Nat) : Int)).natAbs := by
  obtain ⟨hxb, hyb, hland⟩ := hcell
  have hd2 := ((createDefaultMap_land_iff size x y).mp hland).2.2
  by_cases hgt : size / 2 < y
  · refine ⟨y - 1, ?_, ?_, ?_⟩
    · rw [landCell]
      refine ⟨hxb, by omega, ?_⟩
      rw [createDefaultMap_land_iff]
      refine ⟨hxb, by omega, ?_⟩
      have hc : ((y - 1 : Nat) : Int) = (y : Int) - 1 := by omega
      unfold dist2 at hd2 ⊢
      rw [hc]
      nlinarith [hd2, (by omega : ((size / 2 : Nat) : Int) + 1 ≤ (y : Int))]
    · unfold adjacentCell
      omega
    · omega
  · refine ⟨y + 1, ?_, ?_, ?_⟩
    · rw [landCell]
      refine ⟨hxb, by omega, ?_⟩
      rw [createDefaultMap_land_iff]
      refine ⟨hxb, by omega, ?_⟩
      have hc : ((y + 1 : Nat) : Int) = (y : Int) + 1 := by omega
      unfold dist2 at hd2 ⊢
      rw [hc]
      nlinarith [hd2, (by omega : (y : Int) + 1 ≤ ((size / 2 : Nat) : Int))]
    · unfold adjacentCell
      omega
    · omega

lemma disk_reaches_center (size : Nat) :
    ∀ n x y, landCell size (createDefaultMap size) (x, y) →
      ((x : Int) - ((size / 2 : Nat) : Int)).natAbs
        + ((y : Int) - ((size / 2 : Nat) : Int)).natAbs = n →
      Relation.ReflTransGen (landStep size (createDefaultMap size)) (x, y)
        (size / 2, size / 2) := by
  intro n
  induction n with
  | zero =>
    intro x y hl hm
    have hx : x = size / 2 := by omega
    have hy : y = size / 2 := by omega
    subst hx
    subst hy
    exact Relation.ReflTransGen.refl
  | succ n ih =>
    intro x y hl hm
    by_cases hx : x = size / 2
    · have hy : y ≠ size / 2 := by
        intro hy
        subst hx
        subst hy
        omega
      obtain ⟨y2, hc2, hadj, hdec⟩ := disk_move_y size x y hy hl
      refine Relation.ReflTransGen.head ⟨hl, hc2, hadj⟩ ?_
      exact ih x y2 hc2 (by omega)
    · obtain ⟨x2, hc2, hadj, hdec⟩ := disk_move_x size x y hx hl
      refine Relation.ReflTransGen.head ⟨hl, hc2, hadj⟩ ?_
      exact ih x2 y hc2 (by omega)

/-- The deterministic disk fallback is connected. -/
lemma createDefaultMap_connected (size : Nat) :
    gridConnected size (createDefaultMap size) := by
  intro p q hp hq
  obtain ⟨px, py⟩ := p
  obtain ⟨qx, qy⟩ := q
  have h1 := disk_reaches_center size _ px py hp rfl
  have h2 := disk_reaches_center size _ qx qy hq rfl
  exact Relation.ReflTransGen.trans h1
    (Relation.ReflTransGen.symmetric
      (landStep_symm size (createDefaultMap size)) h2)

/-- **C1.** `generateMap` is a total function (never throws) and, for any
size, retry budget and random trace: the returned grid is connected — all
land cells lie in a single 4-connected component — and if none of the
`maxRetries` attempts passes the connectivity check, the returned grid is
the deterministic fallback in which an in-range cell is land exactly when
its squared Euclidean distance to the grid center `(⌊size/2⌋, ⌊size/2⌋)` is
at most `(⌊0.35 · size⌋)²`, i.e. its distance is at most
`⌊0.35 · size⌋`. -/
theorem generateMap_connected_and_disk_fallback (size maxRetries : Nat)
    (attempt : Nat → Grid) :
    gridConnected size (generateMap size maxRetries attempt) ∧
    ((∀ k, k < maxRetries → isConnectedMap size (attempt k) = false) →
      generateMap size maxRetries attempt = createDefaultMap size ∧
      ∀ x y, x < size → y < size →
        (generateMap size maxRetries attempt x y = LAND ↔
          dist2 x y (size / 2) (size / 2)
            ≤ ((size * 7 / 20 : Nat) : Int) ^ 2)) := by
  constructor
  · unfold generateMap
    rcases hfind : (List.range maxRetries).find?
        (fun k => isConnectedMap size (attempt k)) with _ | k
    · exact createDefaultMap_connected size
    · have hk := List.find?_some hfind
      simp only [decide_eq_true_eq] at hk
      exact isConnectedMap_sound size (attempt k) hk
  · intro hall
    have hnone : (List.range maxRetries).find?
        (fun k => isConnectedMap size (attempt k)) = none := by
      rw [List.find?_eq_none]
      intro k hk
      rw [List.mem_range] at hk
      simp [hall k hk]
    have hgen : generateMap size maxRetries attempt
        = createDefaultMap size := by
      unfold generateMap
      rw [hnone]
    refine ⟨hgen, ?_⟩
    intro x y hx hy
    rw [hgen, createDefaultMap_land_iff]
    exact ⟨fun h => h.2.2, fun h => ⟨hx, hy, h⟩⟩

/-- A random trace whose every attempt yields the same disconnected
two-island grid: land at (0,0) and (2,2) only. -/
def demoAttempt : Nat → Grid := fun _ x y =>
  if (x = 0 ∧ y = 0) ∨ (x = 2 ∧ y = 2) then LAND else WATER

/-- C1 at a concrete input: on a 3×3 grid where the single attempt is the
disconnected two-island grid, generation falls back to the disk map, and
the result is connected. -/
theorem generateMap_connected_and_disk_fallback_witness :
    (∀ k, k < 1 → isConnectedMap 3 (demoAttempt k) = false) ∧
    generateMap 3 1 demoAttempt = createDefaultMap 3 ∧
    gridConnected 3 (generateMap 3 1 demoAttempt) := by
  have hall : ∀ k, k < 1 → isConnectedMap 3 (demoAttempt k) = false := by
    intro k hk
    have hk0 : k = 0 := by omega
    subst hk0
    decide
  have h := generateMap_connected_and_disk_fallback 3 1 demoAttempt
  exact ⟨hall, (h.2 hall).1, h.1⟩

end CbWeGame
